import Mathlib

/-
Verification of the BuildWithData task-tracking pipeline.

The development shallowly embeds the repository's C++ sources:
  * `Task`, `UndoAction`, `User` value classes (models/*.h, found in src/python/db/init_db.sql
    after the Tasks/Users DDL);
  * the generic templated `Queue<T>` and `Stack<T>` and the non-templated `Task*` queue
    (src/c++/data_structures/Queue.cpp, Stack.cpp);
  * `DatabaseConnector::createTask`, `getPendingTasks`, `updateTaskStatus`
    (src/unnamed/part_000), with the MySQL store modelled as an explicit `DBState`
    and SQL-level exceptions modelled by an injected fault point per call;
  * the `TaskManager` orchestrator (submit / process queue / load scheduler /
    run scheduler / undo) from the driver translation unit.

Thrown C++ exceptions that escape a function are modelled as `Except.error`;
a call that returns normally is `Except.ok`.  Durable (committed) database
state is threaded explicitly, so a rollback is simply "return the incoming
`DBState` unchanged".
-/

namespace BuildWithData

/-- Task value object (models/Task.h): fields in declaration order
`task_id, assignee_id, title, description, status, priority`; the C++
constructor `Task(t, d, p, s, id, assign_id)` fills them as written below. -/
structure Task where
  task_id : Int
  assignee_id : Int
  title : String
  description : String
  status : String
  priority : Int
deriving DecidableEq, Repr

/-- UndoAction (models/UndoAction.h): an action name plus a
`std::map<std::string, std::string>` of context data, modelled as an
association list. -/
structure UndoAction where
  action_name : String
  data : List (String × String)
deriving DecidableEq, Repr

/-- A row of the `Tasks` table (init_db.sql).  `created_at` is modelled as the
insertion sequence number, which respects timestamp order for the
single-threaded pipeline.  An `assignee_id` of 0 stands for SQL NULL, exactly
as `createTask` treats it. -/
structure Row where
  task_id : Int
  assignee_id : Int
  title : String
  description : String
  status : String
  priority : Int
  created_at : Nat
deriving DecidableEq, Repr

/-- Durable database state: committed rows plus the AUTO_INCREMENT counter for
`task_id` and the insertion sequence standing in for `created_at`. -/
structure DBState where
  rows : List Row
  next_id : Int
  next_seq : Nat
deriving DecidableEq, Repr

/-- Fault-injection points for `DatabaseConnector::createTask`: the INSERT can
throw, or the subsequent `SELECT LAST_INSERT_ID()` can throw. -/
inductive CreateFault where
  | noFault
  | atInsert
  | atIdQuery
deriving DecidableEq, Repr

/-- Fault-injection points for `DatabaseConnector::updateTaskStatus`: the
SELECT ... FOR UPDATE, the UPDATE, or the COMMIT can throw an
`sql::SQLException`. -/
inductive UpdateFault where
  | noFault
  | atSelect
  | atUpdate
  | atCommit
deriving DecidableEq, Repr

/-- DatabaseConnector::createTask (src/unnamed/part_000 lines 49-91).
Executes the INSERT, then reads LAST_INSERT_ID and assigns it into the task
object in place, returning the same object; on an `sql::SQLException` the
catch block returns `nullptr` (here `none`) and the task object is untouched.
Result: (durable state, task object after the call, returned pointer). -/
def createTask (db : DBState) (t : Task) (f : CreateFault) : DBState × Task × Option Task :=
  match f with
  | .atInsert => (db, t, none)
  | .atIdQuery =>
    let row : Row := ⟨db.next_id, t.assignee_id, t.title, t.description, t.status, t.priority, db.next_seq⟩
    (⟨db.rows ++ [row], db.next_id + 1, db.next_seq + 1⟩, t, none)
  | .noFault =>
    let row : Row := ⟨db.next_id, t.assignee_id, t.title, t.description, t.status, t.priority, db.next_seq⟩
    let t1 : Task := { t with task_id := db.next_id }
    (⟨db.rows ++ [row], db.next_id + 1, db.next_seq + 1⟩, t1, some t1)

/-- Comparator realising `ORDER BY priority ASC, created_at ASC`. -/
def rowLe (a b : Row) : Bool :=
  decide (a.priority < b.priority) ||
    ((a.priority == b.priority) && decide (a.created_at ≤ b.created_at))

/-- Insert a row into a list sorted by `rowLe`, keeping earlier rows first. -/
def insertSortedRow (r : Row) : List Row → List Row
  | [] => [r]
  | x :: xs => if rowLe x r then x :: insertSortedRow r xs else r :: x :: xs

/-- Insertion sort by `rowLe`, realising the SQL ORDER BY (the sort key
(priority, created_at) is injective on rows of one store, so any correct SQL
engine produces this unique order). -/
def sortRows : List Row → List Row
  | [] => []
  | x :: xs => insertSortedRow x (sortRows xs)

/-- DatabaseConnector::getPendingTasks (src/unnamed/part_000 lines 93-125):
SELECT * FROM Tasks WHERE status = 'pending' ORDER BY priority ASC,
created_at ASC, each row mapped to a freshly allocated Task. -/
def getPendingTasks (db : DBState) : List Task :=
  (sortRows (db.rows.filter (fun r => r.status == "pending"))).map
    (fun r => ⟨r.task_id, r.assignee_id, r.title, r.description, r.status, r.priority⟩)

/-- DatabaseConnector::updateTaskStatus (src/unnamed/part_000 lines 130-188).
Inside a transaction: SELECT status ... FOR UPDATE, then UPDATE, then COMMIT.
An `sql::SQLException` at any point is caught, the transaction rolled back
(durable rows unchanged) and `(false, old_status-so-far)` returned, where
`old_status` was initialised to `""`.  When the SELECT finds no row the code
throws `std::runtime_error("Task not found")`, which the
`catch (sql::SQLException &)` handler does NOT catch, so it escapes the
function (modelled as `Except.error`); nothing was committed, so the durable
rows are returned unchanged. -/
def updateTaskStatus (db : DBState) (id : Int) (new_status : String) (f : UpdateFault) :
    DBState × Except String (Bool × String) :=
  match f with
  | .atSelect => (db, .ok (false, ""))
  | _ =>
    match db.rows.find? (fun r => r.task_id == id) with
    | none => (db, .error "Task not found")
    | some row =>
      match f with
      | .atUpdate => (db, .ok (false, row.status))
      | .atCommit => (db, .ok (false, row.status))
      | _ =>
        (⟨db.rows.map (fun r => if r.task_id == id then { r with status := new_status } else r),
          db.next_id, db.next_seq⟩,
         .ok (true, row.status))

/-- Status of the row with the given task_id, as a subsequent read would see it. -/
def statusOf (db : DBState) (id : Int) : Option String :=
  (db.rows.find? (fun r => r.task_id == id)).map (fun r => r.status)

/-- Templated FIFO queue (Queue.cpp lines 68-127): a singly linked chain from
`head` to `tail` plus an `int _size` counter maintained separately by the
code.  The chain is abstracted as the list of payloads from front to back. -/
structure Queue (α : Type) where
  items : List α
  _size : Int
deriving DecidableEq, Repr

/-- Queue() : head(nullptr), tail(nullptr), _size(0). -/
def Queue.empty {α : Type} : Queue α := ⟨[], 0⟩

/-- Queue<T>::enqueue (lines 87-97): link a new node at the tail, `_size++`. -/
def Queue.enqueue {α : Type} (q : Queue α) (data : α) : Queue α :=
  ⟨q.items ++ [data], q._size + 1⟩

/-- Queue<T>::dequeue (lines 101-118): throw "Queue is empty" when empty,
otherwise unlink the head node, `_size--`, and return its payload. -/
def Queue.dequeue {α : Type} (q : Queue α) : Except String (α × Queue α) :=
  match q.items with
  | [] => .error "Queue is empty"
  | x :: xs => .ok (x, ⟨xs, q._size - 1⟩)

/-- Queue<T>::isEmpty (lines 120-122): head == nullptr. -/
def Queue.isEmpty {α : Type} (q : Queue α) : Bool := q.items.isEmpty

/-- Queue<T>::size (lines 124-126): return _size. -/
def Queue.size {α : Type} (q : Queue α) : Int := q._size

/-- Templated LIFO stack (Stack.cpp): linked chain from `top`, with `int _size`.
Head of the list is the top of the stack. -/
structure Stack (α : Type) where
  items : List α
  _size : Int
deriving DecidableEq, Repr

/-- Stack() : top(nullptr), _size(0). -/
def Stack.empty {α : Type} : Stack α := ⟨[], 0⟩

/-- Stack<T>::push (lines 30-35): new node pointing at the old top, `_size++`. -/
def Stack.push {α : Type} (s : Stack α) (data : α) : Stack α :=
  ⟨data :: s.items, s._size + 1⟩

/-- Stack<T>::pop (lines 39-52): throw "Stack is empty" when empty, otherwise
unlink the top node, `_size--`, and return its payload. -/
def Stack.pop {α : Type} (s : Stack α) : Except String (α × Stack α) :=
  match s.items with
  | [] => .error "Stack is empty"
  | x :: xs => .ok (x, ⟨xs, s._size - 1⟩)

/-- Stack<T>::peek (lines 56-61): throw "Stack is empty" when empty, otherwise
return the top payload without removing it. -/
def Stack.peek {α : Type} (s : Stack α) : Except String α :=
  match s.items with
  | [] => .error "Stack is empty"
  | x :: _ => .ok x

/-- Stack<T>::isEmpty: top == nullptr. -/
def Stack.isEmpty {α : Type} (s : Stack α) : Bool := s.items.isEmpty

/-- Stack<T>::size: return _size. -/
def Stack.size {α : Type} (s : Stack α) : Int := s._size

/-- The non-templated `Task*` queue (Queue.cpp lines 1-55).  Its `dequeue`
does not throw: on an empty queue it returns the value `nullptr`
(lines 28-31), modelled as `Option.none`; no error is signalled. -/
structure TaskQueue where
  items : List Task
  _size : Int
deriving DecidableEq, Repr

/-- Queue() : head(nullptr), tail(nullptr), _size(0)  (line 4). -/
def TaskQueue.empty : TaskQueue := ⟨[], 0⟩

/-- Queue::enqueue (lines 15-26). -/
def TaskQueue.enqueue (q : TaskQueue) (data : Task) : TaskQueue :=
  ⟨q.items ++ [data], q._size + 1⟩

/-- Queue::dequeue (lines 28-47): `if (isEmpty()) return nullptr;` — a normal
return of a null Task pointer, not an error signal; otherwise unlink the head
node and return its payload. -/
def TaskQueue.dequeue (q : TaskQueue) : Option Task × TaskQueue :=
  match q.items with
  | [] => (none, q)
  | x :: xs => (some x, ⟨xs, q._size - 1⟩)

/-- Min-priority queue holding `(priority key, payload)` entries in insertion
order.  Modelled from the spec: the implementation file
`data_structures/PriorityQueue.h` is included and used by the TaskManager but
is absent from the sources; spec §4.3 fixes the contract: `insert(item, key)`,
`extract_min()` returning the entry with the smallest integer key, ties broken
by insertion order (earliest inserted wins), `isEmpty`/`size`. -/
structure PriorityQueue (α : Type) where
  items : List (Int × α)
deriving DecidableEq, Repr

/-- Modelled from the spec: an empty scheduler. -/
def PriorityQueue.empty {α : Type} : PriorityQueue α := ⟨[]⟩

/-- Modelled from the spec: `insert(item, priorityKey)` records the entry;
keeping entries in arrival order is what realises the mandated
insertion-order tie-break. -/
def PriorityQueue.insert {α : Type} (pq : PriorityQueue α) (a : α) (k : Int) : PriorityQueue α :=
  ⟨pq.items ++ [(k, a)]⟩

/-- Select the first entry holding the minimal key from a list kept in
insertion order; return it together with the remaining entries (their
relative order preserved). -/
def selectMin {α : Type} : List (Int × α) → Option ((Int × α) × List (Int × α))
  | [] => none
  | x :: xs =>
    match selectMin xs with
    | none => some (x, [])
    | some (m, rest) => if x.1 ≤ m.1 then some (x, xs) else some (m, x :: rest)

/-- Modelled from the spec: `extract_min()` removes and returns the
`(priority, data)` pair with the smallest key, earliest inserted first on
ties; `Option.none` models the empty-container error condition. -/
def PriorityQueue.extract_min {α : Type} (pq : PriorityQueue α) :
    Option ((Int × α) × PriorityQueue α) :=
  match selectMin pq.items with
  | none => none
  | some (m, rest) => some (m, ⟨rest⟩)

/-- Modelled from the spec: `isEmpty()`. -/
def PriorityQueue.isEmpty {α : Type} (pq : PriorityQueue α) : Bool := pq.items.isEmpty

/-- Insert a whole sequence of `(key, payload)` entries in order. -/
def insertAll {α : Type} (pq : PriorityQueue α) : List (Int × α) → PriorityQueue α
  | [] => pq
  | (k, a) :: rest => insertAll (pq.insert a k) rest

/-- Repeated `extract_min` bounded by `fuel` iterations, collecting the
extracted `(priority, payload)` pairs in extraction order.  Each extraction
removes exactly one entry (`selectMin_length`), so `l.length` fuel drains
the scheduler completely. -/
def extractAllFuel {α : Type} : Nat → List (Int × α) → List (Int × α)
  | 0, _ => []
  | fuel + 1, l =>
    match selectMin l with
    | none => []
    | some (m, rest) => m :: extractAllFuel fuel rest

/-- Drain a scheduler entry list by repeated `extract_min` until empty. -/
def extractAll {α : Type} (l : List (Int × α)) : List (Int × α) :=
  extractAllFuel l.length l

/-- In-memory state of the TaskManager (driver translation unit): the
database collaborator's durable state plus the three containers
`new_task_queue`, `task_scheduler`, `undo_stack`. -/
structure TMState where
  db : DBState
  new_task_queue : Queue Task
  task_scheduler : PriorityQueue Task
  undo_stack : Stack UndoAction
deriving DecidableEq, Repr

/-- TaskManager freshly constructed over a database state. -/
def TMState.init (db : DBState) : TMState :=
  ⟨db, Queue.empty, PriorityQueue.empty, Stack.empty⟩

/-- TaskManager::submit_new_task: construct
`Task(title, desc, priority, "pending", 0, user_id)` and enqueue it. -/
def submit_new_task (st : TMState) (title desc : String) (priority : Int) (user_id : Int) : TMState :=
  { st with new_task_queue :=
      st.new_task_queue.enqueue ⟨0, user_id, title, desc, "pending", priority⟩ }

/-- The drain loop of TaskManager::process_new_task_queue:
`while (!isEmpty()) { dequeue; db->createTask(...); }`, one injected fault
per `createTask` call; the returned task pointer is discarded by the caller. -/
def process_queue_loop (db : DBState) : List Task → List CreateFault → DBState
  | [], _ => db
  | t :: rest, faults =>
    process_queue_loop (createTask db t (faults.headD CreateFault.noFault)).1 rest (faults.drop 1)

/-- TaskManager::process_new_task_queue: drain the FIFO queue entirely,
persisting each task. -/
def process_new_task_queue (st : TMState) (faults : List CreateFault) : TMState :=
  { st with db := process_queue_loop st.db st.new_task_queue.items faults,
            new_task_queue := Queue.empty }

/-- TaskManager::load_tasks_into_scheduler: getPendingTasks, then
`task_scheduler.insert(task, task->priority)` for each in returned order. -/
def load_tasks_into_scheduler (st : TMState) : TMState :=
  { st with task_scheduler :=
      insertAll st.task_scheduler ((getPendingTasks st.db).map (fun t => (t.priority, t))) }

/-- The while loop of TaskManager::run_task_scheduler (lines 216-249 of the
driver).  Per extracted task: update status to "in_progress"; only on success
push UndoAction("update_status", {task_id, old_status}); then UNCONDITIONALLY
update status to "completed" (line 245 sits outside the `if (success)` block).
An exception escaping `updateTaskStatus` propagates out of the loop
(`Except.error`).  `fuel` bounds the iterations; each iteration removes
exactly one scheduler entry, so `sched.length` fuel always suffices.
The log records every attempted `updateTaskStatus` call as
`(task_id, new_status)` in call order. -/
def run_sched_loop : Nat → DBState → List (Int × Task) → Stack UndoAction →
    List UpdateFault → List (Int × String) →
    Except String (DBState × Stack UndoAction × List (Int × String))
  | 0, db, sched, undo, _, log =>
    match selectMin sched with
    | none => .ok (db, undo, log)
    | some _ => .error "loop fuel exhausted"
  | fuel + 1, db, sched, undo, faults, log =>
    match selectMin sched with
    | none => .ok (db, undo, log)
    | some (item, rest) =>
      let task := item.2
      let r1 := updateTaskStatus db task.task_id "in_progress" (faults.headD UpdateFault.noFault)
      match r1.2 with
      | .error e => .error e
      | .ok (success, old) =>
        let undo1 := if success
          then undo.push ⟨"update_status", [("task_id", toString task.task_id), ("old_status", old)]⟩
          else undo
        let r2 := updateTaskStatus r1.1 task.task_id "completed"
          ((faults.drop 1).headD UpdateFault.noFault)
        match r2.2 with
        | .error e => .error e
        | .ok _ =>
          run_sched_loop fuel r2.1 rest undo1 (faults.drop 2)
            (log ++ [(task.task_id, "in_progress"), (task.task_id, "completed")])

/-- TaskManager::run_task_scheduler: drain the priority scheduler, leaving it
empty; returns the updated manager state and the gateway-call log. -/
def run_task_scheduler (st : TMState) (faults : List UpdateFault) :
    Except String (TMState × List (Int × String)) :=
  match run_sched_loop st.task_scheduler.items.length st.db st.task_scheduler.items
      st.undo_stack faults [] with
  | .error e => .error e
  | .ok (db1, undo1, log) =>
    .ok ({ st with db := db1, task_scheduler := PriorityQueue.empty, undo_stack := undo1 }, log)

/-- `std::map<std::string,std::string>::operator[]` lookup; a missing key
default-constructs an empty string. -/
def lookupD (m : List (String × String)) (k : String) : String :=
  match m.find? (fun p => p.1 == k) with
  | some p => p.2
  | none => ""

/-- Accumulate decimal digits; `none` on the first non-digit character. -/
def parseNatAux (acc : Nat) : List Char → Option Nat
  | [] => some acc
  | c :: cs => if c.isDigit then parseNatAux (acc * 10 + (c.toNat - '0'.toNat)) cs else none

/-- `std::stoi`: parse an optional minus sign and decimal digits; throws on a
non-numeric string (modelled as `Except.error`). -/
def stoi (s : String) : Except String Int :=
  match s.data with
  | [] => .error "stoi: invalid argument"
  | '-' :: c :: cs =>
    match parseNatAux 0 (c :: cs) with
    | some n => .ok (-(n : Int))
    | none => .error "stoi: invalid argument"
  | cs =>
    match parseNatAux 0 cs with
    | some n => .ok (n : Int)
    | none => .error "stoi: invalid argument"

/-- TaskManager::undo_last_action (lines 252-269 of the driver): if the undo
stack is empty, print "Nothing to undo." and return (no gateway call);
otherwise pop one UndoAction and, when its kind is "update_status", ask
the gateway to set the task's status back to the recorded old status.
Returns (state, gateway-call log, console reports). -/
def undo_last_action (st : TMState) (faults : List UpdateFault) :
    Except String (TMState × List (Int × String) × List String) :=
  if st.undo_stack.isEmpty then
    .ok (st, [], ["Nothing to undo."])
  else
    match st.undo_stack.pop with
    | .error e => .error e
    | .ok (action, stack1) =>
      if action.action_name == "update_status" then
        match stoi (lookupD action.data "task_id") with
        | .error e => .error e
        | .ok task_id =>
          let status_to_revert := lookupD action.data "old_status"
          let r := updateTaskStatus st.db task_id status_to_revert
            (faults.headD UpdateFault.noFault)
          match r.2 with
          | .error e => .error e
          | .ok _ =>
            .ok ({ st with db := r.1, undo_stack := stack1 }, [(task_id, status_to_revert)], [])
      else
        .ok ({ st with undo_stack := stack1 }, [], [])

/-- The single-task round trip of spec §8: submit one task with priority 2,
persist the queue, load pending tasks into the scheduler, run the scheduler,
then undo once — all gateway calls succeeding.  Mirrors the main() driver
sequence restricted to one submission. -/
def single_task_round_trip : Except String TMState :=
  let st0 := TMState.init ⟨[], 1, 0⟩
  let st1 := submit_new_task st0 "Deploy to prod" "Push v2.0" 2 1
  let st2 := process_new_task_queue st1 []
  let st3 := load_tasks_into_scheduler st2
  match run_task_scheduler st3 [] with
  | .error e => .error e
  | .ok (st4, _) =>
    match undo_last_action st4 [] with
    | .error e => .error e
    | .ok (st5, _, _) => .ok st5

/-- Enqueue a whole list of items in order. -/
def enqueueAll {α : Type} : Queue α → List α → Queue α
  | q, [] => q
  | q, x :: xs => enqueueAll (q.enqueue x) xs

/-- Dequeue `j` items, collecting them in dequeue order. -/
def dequeueN {α : Type} : Queue α → Nat → Except String (List α × Queue α)
  | q, 0 => .ok ([], q)
  | q, j + 1 =>
    match q.dequeue with
    | .error e => .error e
    | .ok (x, q1) =>
      match dequeueN q1 j with
      | .error e => .error e
      | .ok (xs, q2) => .ok (x :: xs, q2)

/-- Push a whole list of items in order. -/
def pushAll {α : Type} : Stack α → List α → Stack α
  | s, [] => s
  | s, x :: xs => pushAll (s.push x) xs

/-- Pop `j` items, collecting them in pop order. -/
def popN {α : Type} : Stack α → Nat → Except String (List α × Stack α)
  | s, 0 => .ok ([], s)
  | s, j + 1 =>
    match s.pop with
    | .error e => .error e
    | .ok (x, s1) =>
      match popN s1 j with
      | .error e => .error e
      | .ok (xs, s2) => .ok (x :: xs, s2)

/-- The durable status of the single round-trip task (id 1) after the full
pipeline run. -/
def single_task_final_status : Option String :=
  match single_task_round_trip with
  | .ok st => statusOf st.db 1
  | .error _ => none

/-- A scheduler from which nothing can be extracted is empty. -/
theorem selectMin_eq_none {α : Type} (l : List (Int × α)) (h : selectMin l = none) : l = [] := by
  cases l with
  | nil => rfl
  | cons x xs =>
    simp only [selectMin] at h
    split at h
    · cases h
    · split at h <;> cases h

/-- Selecting the minimum removes exactly one entry. -/
theorem selectMin_length {α : Type} (l : List (Int × α)) :
    ∀ m rest, selectMin l = some (m, rest) → rest.length + 1 = l.length := by
  induction l with
  | nil => intro m rest h; simp [selectMin] at h
  | cons x xs ih =>
    intro m rest h
    simp only [selectMin] at h
    split at h
    · rename_i hxs
      have hnil := selectMin_eq_none xs hxs
      cases h
      simp [hnil]
    · rename_i m' rest' hxs
      split at h
      · cases h
        simp
      · cases h
        have := ih _ _ hxs
        simpa using this

theorem selectMin_mem {α : Type} (l : List (Int × α)) :
    ∀ m rest, selectMin l = some (m, rest) → m ∈ l := by
  induction l with
  | nil => intro m rest h; simp [selectMin] at h
  | cons x xs ih =>
    intro m rest h
    simp only [selectMin] at h
    split at h
    · cases h
      simp
    · rename_i m' rest' hxs
      split at h
      · cases h
        simp
      · cases h
        exact List.mem_cons_of_mem x (ih _ _ hxs)

theorem selectMin_rest_mem {α : Type} (l : List (Int × α)) :
    ∀ m rest, selectMin l = some (m, rest) → ∀ p ∈ rest, p ∈ l := by
  induction l with
  | nil => intro m rest h; simp [selectMin] at h
  | cons x xs ih =>
    intro m rest h p hp
    simp only [selectMin] at h
    split at h
    · cases h
      simp at hp
    · rename_i m' rest' hxs
      split at h
      · cases h
        exact List.mem_cons_of_mem x hp
      · cases h
        rcases List.mem_cons.mp hp with hp1 | hp1
        · simp [hp1]
        · exact List.mem_cons_of_mem x (ih _ _ hxs p hp1)

theorem selectMin_le {α : Type} (l : List (Int × α)) :
    ∀ m rest, selectMin l = some (m, rest) → ∀ p ∈ l, m.1 ≤ p.1 := by
  induction l with
  | nil => intro m rest h; simp [selectMin] at h
  | cons x xs ih =>
    intro m rest h p hp
    simp only [selectMin] at h
    split at h
    · rename_i hxs
      have hnil := selectMin_eq_none xs hxs
      subst hnil
      cases h
      rcases List.mem_cons.mp hp with hp1 | hp1
      · subst hp1
        exact le_refl _
      · simp at hp1
    · rename_i m' rest' hxs
      split at h
      · rename_i hle
        cases h
        rcases List.mem_cons.mp hp with hp1 | hp1
        · subst hp1
          exact le_refl _
        · exact le_trans hle (ih _ _ hxs p hp1)
      · rename_i hle
        cases h
        rcases List.mem_cons.mp hp with hp1 | hp1
        · subst hp1
          exact le_of_lt (lt_of_not_le hle)
        · exact ih _ _ hxs p hp1

theorem selectMin_filter {α : Type} (l : List (Int × α)) :
    ∀ m rest, selectMin l = some (m, rest) → ∀ k : Int,
      l.filter (fun p => decide (p.1 = k)) =
        (if m.1 = k then m :: rest.filter (fun p => decide (p.1 = k))
         else rest.filter (fun p => decide (p.1 = k))) := by
  induction l with
  | nil => intro m rest h; simp [selectMin] at h
  | cons x xs ih =>
    intro m rest h k
    simp only [selectMin] at h
    split at h
    · rename_i hxs
      have hnil := selectMin_eq_none xs hxs
      subst hnil
      cases h
      by_cases hxk : x.1 = k <;> simp [List.filter_cons, hxk]
    · rename_i m' rest' hxs
      split at h
      · cases h
        by_cases hxk : x.1 = k <;> simp [List.filter_cons, hxk]
      · rename_i hle
        cases h
        have hlt : m.1 < x.1 := lt_of_not_le hle
        have ihk := ih _ _ hxs k
        rw [List.filter_cons, ihk, List.filter_cons]
        by_cases hm : m.1 = k
        · have hxk : ¬ (x.1 = k) := by omega
          simp [hm, hxk]
        · by_cases hxk : x.1 = k <;> simp [hm, hxk]

theorem extractAllFuel_nil {α : Type} : ∀ n : Nat, extractAllFuel n ([] : List (Int × α)) = []
  | 0 => rfl
  | _ + 1 => rfl

theorem extractAllFuel_subset {α : Type} :
    ∀ (n : Nat) (l : List (Int × α)), ∀ q ∈ extractAllFuel n l, q ∈ l := by
  intro n
  induction n with
  | zero => intro l q hq; simp [extractAllFuel] at hq
  | succ n ihn =>
    intro l q hq
    simp only [extractAllFuel] at hq
    split at hq
    · simp at hq
    · rename_i m rest hsel
      rcases List.mem_cons.mp hq with hq1 | hq1
      · subst hq1
        exact selectMin_mem l _ _ hsel
      · exact selectMin_rest_mem l _ _ hsel q (ihn rest q hq1)

theorem extractAllFuel_pairwise {α : Type} :
    ∀ (n : Nat) (l : List (Int × α)), l.length ≤ n →
      List.Pairwise (fun p q : Int × α => p.1 ≤ q.1) (extractAllFuel n l) := by
  intro n
  induction n with
  | zero => intro l hl; simp [extractAllFuel]
  | succ n ihn =>
    intro l hl
    simp only [extractAllFuel]
    split
    · simp
    · rename_i m rest hsel
      have hrest : rest.length ≤ n := by
        have := selectMin_length l _ _ hsel
        omega
      refine List.pairwise_cons.mpr ⟨?_, ihn rest hrest⟩
      intro q hq
      exact selectMin_le l _ _ hsel q
        (selectMin_rest_mem l _ _ hsel q (extractAllFuel_subset n rest q hq))

theorem extractAllFuel_filter {α : Type} :
    ∀ (n : Nat) (l : List (Int × α)), l.length ≤ n → ∀ k : Int,
      (extractAllFuel n l).filter (fun p => decide (p.1 = k)) =
        l.filter (fun p => decide (p.1 = k)) := by
  intro n
  induction n with
  | zero =>
    intro l hl k
    have : l = [] := List.length_eq_zero.mp (Nat.le_zero.mp hl)
    subst this
    simp [extractAllFuel]
  | succ n ihn =>
    intro l hl k
    simp only [extractAllFuel]
    split
    · rename_i hsel
      have : l = [] := selectMin_eq_none l hsel
      subst this
      simp
    · rename_i m rest hsel
      have hrest : rest.length ≤ n := by
        have := selectMin_length l _ _ hsel
        omega
      rw [List.filter_cons, ihn rest hrest k, selectMin_filter l _ _ hsel k]
      by_cases hm : m.1 = k <;> simp [hm]

theorem extractAllFuel_length {α : Type} :
    ∀ (n : Nat) (l : List (Int × α)), l.length ≤ n →
      (extractAllFuel n l).length = l.length := by
  intro n
  induction n with
  | zero =>
    intro l hl
    have : l = [] := List.length_eq_zero.mp (Nat.le_zero.mp hl)
    subst this
    simp [extractAllFuel]
  | succ n ihn =>
    intro l hl
    simp only [extractAllFuel]
    split
    · rename_i hsel
      have : l = [] := selectMin_eq_none l hsel
      subst this
      rfl
    · rename_i m rest hsel
      have hlen := selectMin_length l _ _ hsel
      have hrest : rest.length ≤ n := by omega
      simp only [List.length_cons, ihn rest hrest]
      omega

theorem enqueueAll_mk {α : Type} :
    ∀ (xs : List α) (l : List α) (n : Int),
      enqueueAll ⟨l, n⟩ xs = ⟨l ++ xs, n + xs.length⟩ := by
  intro xs
  induction xs with
  | nil => intro l n; simp [enqueueAll]
  | cons x xs ih =>
    intro l n
    show enqueueAll ⟨l ++ [x], n + 1⟩ xs = _
    rw [ih]
    simp only [List.append_assoc, List.singleton_append, List.length_cons, Queue.mk.injEq]
    refine ⟨trivial, ?_⟩
    push_cast
    ring

theorem dequeueN_mk {α : Type} :
    ∀ (j : Nat) (l : List α) (n : Int), j ≤ l.length →
      dequeueN ⟨l, n⟩ j = .ok (l.take j, ⟨l.drop j, n - j⟩) := by
  intro j
  induction j with
  | zero => intro l n _; simp [dequeueN]
  | succ j ih =>
    intro l n hj
    cases l with
    | nil => simp at hj
    | cons x xs =>
      have hd : (⟨x :: xs, n⟩ : Queue α).dequeue = Except.ok (x, ⟨xs, n - 1⟩) := rfl
      simp only [dequeueN, hd]
      rw [ih xs (n - 1) (by simpa using hj)]
      simp only [List.take_succ_cons, List.drop_succ_cons, Except.ok.injEq, Prod.mk.injEq,
        Queue.mk.injEq]
      refine ⟨trivial, trivial, ?_⟩
      push_cast
      ring

/-- C6: FIFO order and size arithmetic of the templated Queue. -/
theorem queue_fifo_order_and_size {α : Type} (xs : List α) (j : Nat) (h : j ≤ xs.length) :
    dequeueN (enqueueAll Queue.empty xs) j =
      .ok (xs.take j, ⟨xs.drop j, (xs.length : Int) - (j : Int)⟩) ∧
    Queue.size (⟨xs.drop j, (xs.length : Int) - (j : Int)⟩ : Queue α) =
      (xs.length : Int) - (j : Int) := by
  constructor
  · have he : enqueueAll (Queue.empty : Queue α) xs = ⟨xs, xs.length⟩ := by
      rw [show (Queue.empty : Queue α) = ⟨[], 0⟩ from rfl, enqueueAll_mk]
      simp
    rw [he, dequeueN_mk j xs (xs.length : Int) h]
  · rfl

theorem pushAll_mk {α : Type} :
    ∀ (xs : List α) (l : List α) (n : Int),
      pushAll ⟨l, n⟩ xs = ⟨xs.reverse ++ l, n + xs.length⟩ := by
  intro xs
  induction xs with
  | nil => intro l n; simp [pushAll]
  | cons x xs ih =>
    intro l n
    show pushAll ⟨x :: l, n + 1⟩ xs = _
    rw [ih]
    simp only [List.reverse_cons, List.append_assoc, List.singleton_append, List.length_cons,
      Stack.mk.injEq]
    refine ⟨trivial, ?_⟩
    push_cast
    ring

theorem popN_mk {α : Type} :
    ∀ (j : Nat) (l : List α) (n : Int), j ≤ l.length →
      popN ⟨l, n⟩ j = .ok (l.take j, ⟨l.drop j, n - j⟩) := by
  intro j
  induction j with
  | zero => intro l n _; simp [popN]
  | succ j ih =>
    intro l n hj
    cases l with
    | nil => simp at hj
    | cons x xs =>
      have hd : (⟨x :: xs, n⟩ : Stack α).pop = Except.ok (x, ⟨xs, n - 1⟩) := rfl
      simp only [popN, hd]
      rw [ih xs (n - 1) (by simpa using hj)]
      simp only [List.take_succ_cons, List.drop_succ_cons, Except.ok.injEq, Prod.mk.injEq,
        Stack.mk.injEq]
      refine ⟨trivial, trivial, ?_⟩
      push_cast
      ring

/-- C7: LIFO order of the templated Stack. -/
theorem stack_lifo_order {α : Type} (xs : List α) :
    popN (pushAll Stack.empty xs) xs.length = .ok (xs.reverse, Stack.empty) := by
  have hp : pushAll (Stack.empty : Stack α) xs = ⟨xs.reverse, xs.length⟩ := by
    rw [show (Stack.empty : Stack α) = ⟨[], 0⟩ from rfl, pushAll_mk]
    simp
  rw [hp, popN_mk xs.length xs.reverse (xs.length : Int) (by simp)]
  simp [Stack.empty]

theorem insertAll_items {α : Type} :
    ∀ (entries : List (Int × α)) (pq : PriorityQueue α),
      (insertAll pq entries).items = pq.items ++ entries := by
  intro entries
  induction entries with
  | nil => intro pq; simp [insertAll]
  | cons e rest ih =>
    intro pq
    obtain ⟨k, a⟩ := e
    show (insertAll (pq.insert a k) rest).items = _
    rw [ih]
    simp [PriorityQueue.insert]

/-- C4: draining the PriorityScheduler built by inserting `entries` in order
yields entries with non-decreasing priority keys; among entries with equal
keys the extraction order equals the insertion order; and every inserted
entry is extracted exactly once. -/
theorem scheduler_sorted_and_stable {α : Type} (entries : List (Int × α)) :
    List.Pairwise (fun p q : Int × α => p.1 ≤ q.1)
      (extractAll (insertAll PriorityQueue.empty entries).items) ∧
    (∀ k : Int,
      (extractAll (insertAll PriorityQueue.empty entries).items).filter
          (fun p => decide (p.1 = k)) =
        entries.filter (fun p => decide (p.1 = k))) ∧
    (extractAll (insertAll PriorityQueue.empty entries).items).length = entries.length := by
  have hitems : (insertAll (PriorityQueue.empty : PriorityQueue α) entries).items = entries := by
    rw [insertAll_items]
    rfl
  rw [hitems]
  unfold extractAll
  exact ⟨extractAllFuel_pairwise entries.length entries (le_refl _),
    fun k => extractAllFuel_filter entries.length entries (le_refl _) k,
    extractAllFuel_length entries.length entries (le_refl _)⟩

/-- C8 counterexample: `Queue::dequeue` of the non-templated `Task*` queue
(Queue.cpp lines 28-31) invoked on an empty queue returns normally with the
value `nullptr` — it does not signal the `EmptyContainer` error the claim
requires ("rather than returning a value"). -/
theorem taskQueue_dequeue_empty_returns_nullptr :
    TaskQueue.dequeue TaskQueue.empty = (none, TaskQueue.empty) := rfl

/-- C8 amended: dequeue on an empty templated Queue and pop/peek on an empty
Stack each signal the empty-container error (a thrown `std::runtime_error`),
and extract_min on an empty scheduler has no entry to yield; the
non-templated `Task*` queue's dequeue instead returns `nullptr` without
signalling. -/
theorem empty_container_error_conditions : ∀ (α : Type),
    (Queue.empty : Queue α).dequeue = Except.error "Queue is empty" ∧
    (Stack.empty : Stack α).pop = Except.error "Stack is empty" ∧
    (Stack.empty : Stack α).peek = Except.error "Stack is empty" ∧
    (PriorityQueue.empty : PriorityQueue α).extract_min = none ∧
    TaskQueue.dequeue TaskQueue.empty = (none, TaskQueue.empty) := by
  intro α
  exact ⟨rfl, rfl, rfl, rfl, rfl⟩

/-- C2: `updateTaskStatus` called with an identifier matching no row does NOT
return normally with success=false — the `throw std::runtime_error("Task not
found")` is not caught by the `catch (sql::SQLException &)` handler, so it
escapes the call (``Except.error``); no durable state is changed (nothing was
committed). -/
theorem updateTaskStatus_missing_task_escapes :
    updateTaskStatus ⟨[], 1, 0⟩ 7 "in_progress" UpdateFault.noFault =
      (⟨[], 1, 0⟩, Except.error "Task not found") := rfl

/-- C3: evaluation of the failure paths of `updateTaskStatus` on a store
holding one pending row of id 1.  An SQL-level failure at the UPDATE or the
COMMIT rolls back (row unchanged) and reports `(false, previousStatus)`; a
failure at the SELECT rolls back and reports `(false, "")` (the status had
not been read yet); but a call targeting the nonexistent id 2 fails by an
escaping exception instead of reporting success=false. -/
theorem updateTaskStatus_failure_paths :
    (updateTaskStatus ⟨[⟨1, 1, "t", "d", "pending", 2, 0⟩], 2, 1⟩ 1 "in_progress"
        UpdateFault.atUpdate =
      (⟨[⟨1, 1, "t", "d", "pending", 2, 0⟩], 2, 1⟩, Except.ok (false, "pending"))) ∧
    (updateTaskStatus ⟨[⟨1, 1, "t", "d", "pending", 2, 0⟩], 2, 1⟩ 1 "in_progress"
        UpdateFault.atCommit =
      (⟨[⟨1, 1, "t", "d", "pending", 2, 0⟩], 2, 1⟩, Except.ok (false, "pending"))) ∧
    (updateTaskStatus ⟨[⟨1, 1, "t", "d", "pending", 2, 0⟩], 2, 1⟩ 1 "in_progress"
        UpdateFault.atSelect =
      (⟨[⟨1, 1, "t", "d", "pending", 2, 0⟩], 2, 1⟩, Except.ok (false, ""))) ∧
    (updateTaskStatus ⟨[⟨1, 1, "t", "d", "pending", 2, 0⟩], 2, 1⟩ 2 "in_progress"
        UpdateFault.noFault =
      (⟨[⟨1, 1, "t", "d", "pending", 2, 0⟩], 2, 1⟩, Except.error "Task not found")) :=
  ⟨rfl, rfl, rfl, rfl⟩

/-- C10: when `createTask` fails it returns `nullptr` and the passed task
object is untouched (its identifier in particular still 0 for a fresh task);
when it succeeds it assigns the database-generated identifier into the task
object in place and returns that same object. -/
theorem createTask_contract (db : DBState) (t : Task) :
    (∀ f, f ≠ CreateFault.noFault →
      (createTask db t f).2.2 = none ∧ (createTask db t f).2.1 = t) ∧
    (createTask db t CreateFault.noFault).2.2 = some ((createTask db t CreateFault.noFault).2.1) ∧
    (createTask db t CreateFault.noFault).2.1.task_id = db.next_id := by
  refine ⟨?_, rfl, rfl⟩
  intro f hf
  cases f with
  | noFault => exact absurd rfl hf
  | atInsert => exact ⟨rfl, rfl⟩
  | atIdQuery => exact ⟨rfl, rfl⟩

/-- Witness for C10 at a concrete fresh task and an injected INSERT failure. -/
theorem createTask_contract_witness :
    (CreateFault.atInsert ≠ CreateFault.noFault) ∧
    (createTask ⟨[], 1, 0⟩ ⟨0, 1, "a", "b", "pending", 3⟩ CreateFault.atInsert).2.2 = none ∧
    (createTask ⟨[], 1, 0⟩ ⟨0, 1, "a", "b", "pending", 3⟩ CreateFault.atInsert).2.1 =
      ⟨0, 1, "a", "b", "pending", 3⟩ :=
  ⟨by decide,
   ((createTask_contract ⟨[], 1, 0⟩ ⟨0, 1, "a", "b", "pending", 3⟩).1 CreateFault.atInsert
     (by decide)).1,
   ((createTask_contract ⟨[], 1, 0⟩ ⟨0, 1, "a", "b", "pending", 3⟩).1 CreateFault.atInsert
     (by decide)).2⟩

/-- C9: invoking undo with an empty UndoStack is a no-op: it returns normally
reporting "Nothing to undo.", issues no gateway update (empty call log), and
leaves the whole manager state — durable database state included — unchanged. -/
theorem undo_empty_stack_noop (st : TMState) (faults : List UpdateFault)
    (h : st.undo_stack.items = []) :
    undo_last_action st faults = .ok (st, [], ["Nothing to undo."]) := by
  unfold undo_last_action
  rw [show st.undo_stack.isEmpty = true from by simp [Stack.isEmpty, h]]
  rfl

/-- Witness for C9 at a concrete manager state with an empty undo stack. -/
theorem undo_empty_stack_noop_witness :
    (TMState.init ⟨[], 1, 0⟩).undo_stack.items = [] ∧
    undo_last_action (TMState.init ⟨[], 1, 0⟩) [] =
      .ok (TMState.init ⟨[], 1, 0⟩, [], ["Nothing to undo."]) :=
  ⟨rfl, undo_empty_stack_noop (TMState.init ⟨[], 1, 0⟩) [] rfl⟩

theorem find?_map_setStatus (id : Int) (s : String) :
    ∀ (rows : List Row) (row : Row),
      rows.find? (fun r => r.task_id == id) = some row →
      (rows.map (fun r => if r.task_id == id then { r with status := s } else r)).find?
        (fun r => r.task_id == id) = some { row with status := s } := by
  intro rows
  induction rows with
  | nil => intro row h; simp at h
  | cons x xs ih =>
    intro row h
    by_cases hx : x.task_id = id
    · rw [List.find?_cons_of_pos _ (by simpa using hx)] at h
      cases h
      rw [List.map_cons, if_pos (by simpa using hx),
        List.find?_cons_of_pos _ (by simpa using hx)]
    · rw [List.find?_cons_of_neg _ (by simpa using hx)] at h
      rw [List.map_cons, if_neg (by simpa using hx),
        List.find?_cons_of_neg _ (by simpa using hx)]
      exact ih row h

/-- After the UPDATE of `updateTaskStatus` commits, a read of the row sees
the new status. -/
theorem statusOf_setStatus (db : DBState) (id : Int) (s : String) (row : Row)
    (h : db.rows.find? (fun r => r.task_id == id) = some row) :
    statusOf ⟨db.rows.map (fun r => if r.task_id == id then { r with status := s } else r),
      db.next_id, db.next_seq⟩ id = some s := by
  unfold statusOf
  rw [find?_map_setStatus id s db.rows row h]
  rfl

/-- C1 counterexample: one pending task of id 1 sits in the scheduler; the
first status update (to "in_progress") fails at the UPDATE statement.  The
run pushes no UndoAction — but it still attempts the second update: the call
log records the attempted `(1, "completed")` call, and the task's durable
status advances to "completed", contradicting "the second status update is
never attempted" and "the task's status is not advanced". -/
theorem run_scheduler_failed_first_update_concrete :
    run_task_scheduler
        ⟨⟨[⟨1, 1, "t", "d", "pending", 2, 0⟩], 2, 1⟩, Queue.empty,
          ⟨[(2, ⟨1, 1, "t", "d", "pending", 2⟩)]⟩, Stack.empty⟩
        [UpdateFault.atUpdate] =
      Except.ok
        (⟨⟨[⟨1, 1, "t", "d", "completed", 2, 0⟩], 2, 1⟩, Queue.empty,
          PriorityQueue.empty, Stack.empty⟩,
         [(1, "in_progress"), (1, "completed")]) := rfl

/-- C1 amended: in the execute loop, when the first status update of a task
(pending to in_progress) reports failure, no UndoAction is pushed onto the
UndoStack (the undo stack is exactly as before), but the loop does NOT skip
the rest of the task: it unconditionally attempts the second status update
(to completed) — line 245 sits outside the `if (success)` block — and when
that second update succeeds the task's durable status advances to
"completed"; only then does the loop move on. -/
theorem run_scheduler_failed_first_update_amended (st : TMState) (p : Int) (task : Task)
    (row : Row) (f1 : UpdateFault)
    (hsched : st.task_scheduler.items = [(p, task)])
    (hf : f1 = UpdateFault.atSelect ∨ f1 = UpdateFault.atUpdate ∨ f1 = UpdateFault.atCommit)
    (hrow : st.db.rows.find? (fun r => r.task_id == task.task_id) = some row) :
    ∃ db1, run_task_scheduler st [f1] =
        Except.ok ({ st with db := db1, task_scheduler := PriorityQueue.empty },
          [(task.task_id, "in_progress"), (task.task_id, "completed")]) ∧
      statusOf db1 task.task_id = some "completed" := by
  refine ⟨⟨st.db.rows.map
      (fun r => if r.task_id == task.task_id then { r with status := "completed" } else r),
    st.db.next_id, st.db.next_seq⟩, ?_, statusOf_setStatus st.db task.task_id "completed" row hrow⟩
  unfold run_task_scheduler
  rw [hsched]
  rcases hf with rfl | rfl | rfl <;>
    simp [run_sched_loop, selectMin, updateTaskStatus, hrow, Stack.push]

/-- Witness for C1 (amended) at the concrete one-task scheduler state. -/
theorem run_scheduler_failed_first_update_amended_witness :
    ((⟨⟨[⟨1, 1, "t", "d", "pending", 2, 0⟩], 2, 1⟩, Queue.empty,
        ⟨[(2, ⟨1, 1, "t", "d", "pending", 2⟩)]⟩, Stack.empty⟩ : TMState)).task_scheduler.items =
      [(2, ⟨1, 1, "t", "d", "pending", 2⟩)] ∧
    (UpdateFault.atUpdate = UpdateFault.atSelect ∨ UpdateFault.atUpdate = UpdateFault.atUpdate ∨
      UpdateFault.atUpdate = UpdateFault.atCommit) ∧
    (⟨[⟨1, 1, "t", "d", "pending", 2, 0⟩], 2, 1⟩ : DBState).rows.find?
        (fun r => r.task_id == (⟨1, 1, "t", "d", "pending", 2⟩ : Task).task_id) =
      some ⟨1, 1, "t", "d", "pending", 2, 0⟩ ∧
    ∃ db1, run_task_scheduler
        ⟨⟨[⟨1, 1, "t", "d", "pending", 2, 0⟩], 2, 1⟩, Queue.empty,
          ⟨[(2, ⟨1, 1, "t", "d", "pending", 2⟩)]⟩, Stack.empty⟩ [UpdateFault.atUpdate] =
          Except.ok ({ (⟨⟨[⟨1, 1, "t", "d", "pending", 2, 0⟩], 2, 1⟩, Queue.empty,
              ⟨[(2, ⟨1, 1, "t", "d", "pending", 2⟩)]⟩, Stack.empty⟩ : TMState) with
            db := db1, task_scheduler := PriorityQueue.empty },
            [((⟨1, 1, "t", "d", "pending", 2⟩ : Task).task_id, "in_progress"),
             ((⟨1, 1, "t", "d", "pending", 2⟩ : Task).task_id, "completed")]) ∧
        statusOf db1 (⟨1, 1, "t", "d", "pending", 2⟩ : Task).task_id = some "completed" :=
  ⟨rfl, Or.inr (Or.inl rfl), rfl,
   run_scheduler_failed_first_update_amended
     ⟨⟨[⟨1, 1, "t", "d", "pending", 2, 0⟩], 2, 1⟩, Queue.empty,
       ⟨[(2, ⟨1, 1, "t", "d", "pending", 2⟩)]⟩, Stack.empty⟩
     2 ⟨1, 1, "t", "d", "pending", 2⟩ ⟨1, 1, "t", "d", "pending", 2, 0⟩ UpdateFault.atUpdate
     rfl (Or.inr (Or.inl rfl)) rfl⟩

/-- C5: submit one task of priority 2, persist it, load pending tasks, run the
scheduler, then undo once: the task's final durable status is "pending" —
its status immediately before the in_progress transition — not "completed". -/
theorem single_task_round_trip_pending :
    single_task_final_status = some "pending" ∧
    single_task_final_status ≠ some "completed" :=
  ⟨rfl, by decide⟩

/-- Witness for C6: three enqueues then two dequeues on a concrete queue. -/
theorem queue_fifo_order_and_size_witness :
    (2 : Nat) ≤ ([10, 20, 30] : List Int).length ∧
    (dequeueN (enqueueAll Queue.empty ([10, 20, 30] : List Int)) 2 =
        .ok (([10, 20, 30] : List Int).take 2,
          ⟨([10, 20, 30] : List Int).drop 2,
            ((([10, 20, 30] : List Int).length : Int) - ((2 : Nat) : Int))⟩) ∧
      Queue.size (⟨([10, 20, 30] : List Int).drop 2,
          ((([10, 20, 30] : List Int).length : Int) - ((2 : Nat) : Int))⟩ : Queue Int) =
        (([10, 20, 30] : List Int).length : Int) - ((2 : Nat) : Int)) :=
  ⟨by decide, queue_fifo_order_and_size ([10, 20, 30] : List Int) 2 (by decide)⟩

end BuildWithData

